import Mathlib

/-!
Shallow embedding of the Project-HER2 data-cleaning and statistics core
(`notebooks_code/utils.py`, `notebooks_code/stats.py`).

A pandas `DataFrame` is modelled as a `Table`: a list of column labels plus a
list of index-tagged rows, each row an association list from column label to
`Cell`.  Floating point values are modelled by `ℚ` (all operations the code
performs on them are comparisons, min/max clipping and exact midpoints, so no
rounding behaviour is lost).  A pandas `NaN` is the cell `Cell.null`.
Functions that can raise return `Except String _`.
-/

/-- A scalar cell of a table: pandas `NaN` is `null`; strings, ints,
floats (as `ℚ`) and booleans cover the values the pipeline handles. -/
inductive Cell where
  | null
  | str (s : String)
  | int (n : Int)
  | num (q : ℚ)
  | bool (b : Bool)
deriving DecidableEq, Repr

/-- Python `str(x)` for a cell, as pandas `astype(str)` renders it:
`NaN` becomes `"nan"`, booleans `"True"`/`"False"`, floats with an integral
value get a trailing `.0` (so `str(1.0) = "1.0"`). -/
def Cell.pyStr : Cell → String
  | .null => "nan"
  | .str s => s
  | .int n => toString n
  | .num q => if q.den = 1 then toString q.num ++ ".0" else toString q
  | .bool b => if b then "True" else "False"

/-- Digits of a numeral, most significant first, to the `Nat` they denote. -/
def digitsToNat (l : List Char) : Nat :=
  l.foldl (fun a c => a * 10 + (c.toNat - 48)) 0

/-- The whitespace characters stripped by Python `str.strip()` (ASCII). -/
def isPySpace (c : Char) : Bool :=
  c == ' ' || c == '\t' || c == '\n' || c == '\r' || c == '\x0b' || c == '\x0c'

/-- Drop leading and trailing whitespace from a character list. -/
def stripWs (l : List Char) : List Char :=
  ((l.dropWhile isPySpace).reverse.dropWhile isPySpace).reverse

/-- Python `str.strip()` (ASCII whitespace model). -/
def pyStrip (s : String) : String :=
  String.mk (stripWs s.toList)

/-- Python `str.lower()` (ASCII model). -/
def pyLower (s : String) : String :=
  String.mk (s.toList.map Char.toLower)

/-- `pd.to_numeric(·, errors="coerce")` on a string: parse an optionally
signed decimal numeral (integer part, optional fraction part), `none` when the
string is not numeric. -/
def parseRat (s : String) : Option ℚ :=
  let l := stripWs s.toList
  let sgn : Bool × List Char :=
    match l with
    | '-' :: r => (true, r)
    | '+' :: r => (false, r)
    | _ => (false, l)
  let ip := sgn.2.takeWhile Char.isDigit
  let rest := sgn.2.dropWhile Char.isDigit
  let mag : Option ℚ :=
    match rest with
    | [] => if ip.isEmpty then none else some (digitsToNat ip : ℚ)
    | '.' :: fp =>
        if fp.all Char.isDigit && !(ip.isEmpty && fp.isEmpty) then
          some ((digitsToNat ip : ℚ) + (digitsToNat fp : ℚ) / ((10 : ℚ) ^ fp.length))
        else none
    | _ => none
  mag.map (fun q => if sgn.1 then -q else q)

/-- `pd.to_numeric(·, errors="coerce")` on a cell: numbers pass through,
booleans become 0/1, numeric strings are parsed, everything else (and `NaN`)
coerces to `none` (pandas `NaN`). -/
def Cell.toNum : Cell → Option ℚ
  | .null => none
  | .int n => some (n : ℚ)
  | .num q => some q
  | .bool b => some (if b then 1 else 0)
  | .str s => parseRat s

/-- Repack an optional numeric value as a cell (`none` is pandas `NaN`). -/
def Cell.ofNumOpt : Option ℚ → Cell
  | none => .null
  | some q => .num q

/-- A table row: an association list from column label to cell. -/
abbrev Row := List (String × Cell)

/-- Value of column `c` in row `r` (first occurrence; `null` when absent,
as pandas yields `NaN` for a cell never written). -/
def Row.get (r : Row) (c : String) : Cell :=
  (List.lookup c r).getD Cell.null

/-- Column assignment on one row: overwrite every binding of `c` when one
exists, otherwise append a new binding (pandas adds new columns at the end). -/
def Row.set (r : Row) (c : String) (v : Cell) : Row :=
  if (List.lookup c r).isSome then
    r.map (fun p => if p.1 = c then (c, v) else p)
  else r ++ [(c, v)]

/-- An in-memory `DataFrame`: column labels plus rows tagged with their
pandas index (the integer label that survives filtering). -/
structure Table where
  cols : List String
  rows : List (Nat × Row)
deriving DecidableEq, Repr

/-- `df[c] = f(df[c])`-style column assignment: the new value of `c` on each
row is a function of the value of `src` on that row (`src = c` for the usual
in-place transforms). -/
def Table.addColFrom (t : Table) (c src : String) (f : Cell → Cell) : Table :=
  { cols := if c ∈ t.cols then t.cols else t.cols ++ [c]
    rows := t.rows.map (fun ir => (ir.1, ir.2.set c (f (ir.2.get src)))) }

/-- `df[c] = g(df[c])` on an existing or new column `c`. -/
def Table.mapCol (t : Table) (c : String) (f : Cell → Cell) : Table :=
  t.addColFrom c c f

/-- Boolean row filtering `df[mask]`: keeps column labels and row indices. -/
def Table.filterRows (t : Table) (p : Row → Bool) : Table :=
  { cols := t.cols, rows := t.rows.filter (fun ir => p ir.2) }

/-- Column projection `df[cs]` (callers only project to present columns). -/
def Table.project (t : Table) (cs : List String) : Table :=
  { cols := cs
    rows := t.rows.map (fun ir => (ir.1, cs.map (fun c => (c, ir.2.get c)))) }

/-- `df.rename(columns={old: new})`. -/
def Table.rename (t : Table) (old new : String) : Table :=
  { cols := t.cols.map (fun c => if c = old then new else c)
    rows := t.rows.map (fun ir =>
      (ir.1, ir.2.map (fun p => (if p.1 = old then new else p.1, p.2)))) }

/-- `df.dropna(subset=cs)`: drop rows with a null in any of `cs`. -/
def Table.dropnaSubset (t : Table) (cs : List String) : Table :=
  t.filterRows (fun r => cs.all (fun c => decide (r.get c ≠ Cell.null)))

/-! ### The name normalizer (`utils.to_snake`) -/

/-- The characters matched by the regex class `[.\-\s]` of `to_snake`. -/
def isSep (c : Char) : Bool :=
  c == '.' || c == '-' || c == ' ' || c == '\t' || c == '\n' || c == '\r' ||
    c == '\x0b' || c == '\x0c'

/-- ASCII `[a-z0-9]` (codes 97-122 and 48-57), the first class of the
camelCase-splitting regex. -/
def isLowerDigit (c : Char) : Bool :=
  (97 ≤ c.toNat && c.toNat ≤ 122) || (48 ≤ c.toNat && c.toNat ≤ 57)

/-- ASCII `[A-Z]` (codes 65-90), the second class of the camelCase-splitting
regex — the same numeric range `Char.toLower` shifts. -/
def isUpperAscii (c : Char) : Bool :=
  65 ≤ c.toNat && c.toNat ≤ 90

/-- `re.sub(r"[class]+", "_", s)` for a character class `p`: every maximal
run of class characters collapses to a single underscore. -/
def squashRuns (p : Char → Bool) : List Char → List Char
  | [] => []
  | [c] => if p c then ['_'] else [c]
  | c :: c2 :: cs =>
      if p c then
        if p c2 then squashRuns p (c2 :: cs)
        else '_' :: squashRuns p (c2 :: cs)
      else c :: squashRuns p (c2 :: cs)

/-- `re.sub(r"([a-z0-9])([A-Z])", r"\1_\2", s)`: insert an underscore at each
lower-or-digit/upper boundary (the consumed uppercase character can never
begin a later match, so plain pairwise insertion coincides with `re.sub`). -/
def camelSplit : List Char → List Char
  | [] => []
  | [c] => [c]
  | c :: c2 :: cs =>
      if isLowerDigit c && isUpperAscii c2 then c :: '_' :: camelSplit (c2 :: cs)
      else c :: camelSplit (c2 :: cs)

/-- One-character class: the underscore (for collapsing `_+` runs). -/
def isUnd (c : Char) : Bool := c == '_'

/-- `s.strip("_")` on a character list. -/
def stripUnd (l : List Char) : List Char :=
  ((l.dropWhile isUnd).reverse.dropWhile isUnd).reverse

/-- `utils.to_snake`: separators to underscores, camelCase split, lowercase,
collapse repeated underscores, strip edge underscores. -/
def to_snake (s : String) : String :=
  String.mk (stripUnd (squashRuns isUnd
    ((camelSplit (squashRuns isSep s.toList)).map Char.toLower)))

/-- Normalize all column labels of a table
(`df.columns = [to_snake(c) for c in df.columns]`). -/
def Table.normCols (t : Table) : Table :=
  { cols := t.cols.map to_snake
    rows := t.rows.map (fun ir => (ir.1, ir.2.map (fun p => (to_snake p.1, p.2)))) }

/-! ### The cleaning pipeline (`utils.py`) -/

/-- `utils.resolve_signal`: first preferred name present among the columns
(default preference `["pp_her2", "pp_her2_py1248"]`); `none` when no
preferred name is available. -/
def resolve_signal (columns : List String) (preference : Option (List String) := none) :
    Option String :=
  let pref := preference.getD ["pp_her2", "pp_her2_py1248"]
  pref.find? (fun cand => decide (cand ∈ columns))

/-- The HER2-status column candidates tried by `clean_mutations`, in order. -/
def her2_col_candidates : List String :=
  ["her2_final_status", "her2_status", "her2_status_final"]

/-- The lowercased labels counted as HER2-positive when deriving `H`. -/
def posLabels : List String :=
  ["positive", "pos", "her2+", "1", "true", "yes", "high"]

/-- Python `str.capitalize()`: first character uppercased, the rest
lowercased (ASCII model). -/
def capitalizePy (s : String) : String :=
  match s.toList with
  | [] => ""
  | c :: cs => String.mk (c.toUpper :: cs.map Char.toLower)

/-- Comma-separated join, as `", ".join(...)` renders a list of names. -/
def joinComma : List String → String
  | [] => ""
  | [s] => s
  | s :: rest => s ++ ", " ++ joinComma rest

/-- The `ValueError` message of `clean_mutations` when no HER2-status column
is found, over the (already normalized) available columns. -/
def her2ErrMsg (availableCols : List String) : String :=
  "Could not find a HER2 status column among: " ++ joinComma her2_col_candidates ++
    ". Saw columns like: " ++ joinComma (availableCols.take 12)

/-- The standardization `df[her2_col].astype(str).str.strip().str.capitalize()`
applied to one cell. -/
def standardizeStatus (v : Cell) : Cell :=
  Cell.str (capitalizePy (pyStrip v.pyStr))

/-- The mask `df[her2_col].isin(["Positive", "Negative"])` on one row. -/
def her2PosNeg (her2_col : String) (r : Row) : Bool :=
  decide (r.get her2_col = Cell.str "Positive" ∨ r.get her2_col = Cell.str "Negative")

/-- The `H`-indicator transform: `1` if the lowercased, stripped status text
is among `posLabels`, else `0` (`isin(...).astype(int)`). -/
def hIndicator (v : Cell) : Cell :=
  Cell.int (if pyLower (pyStrip v.pyStr) ∈ posLabels then 1 else 0)

/-- `utils.clean_mutations`.  Steps mirror the source: normalize column
names, locate the HER2-status column (else `ValueError`), standardize its
labels and keep only Positive/Negative rows, resolve the pathway-signal
column (an unresolved `None` makes the later `dropna(subset=[None])` raise a
lookup error), project to the final column set, drop null-signal rows, rename
the status column to `her2_final_status`, and derive `H`.  When the resolved
signal column coincides with the status column the projection duplicates the
label and the source's `out["her2_final_status"].astype(str).str` raises (a
duplicated label selects a DataFrame, which has no `.str`); the model
mirrors that failure. -/
def clean_mutations (t : Table) (signal_preference : Option (List String) := none) :
    Except String (Table × String) :=
  let df := t.normCols
  match her2_col_candidates.find? (fun c => decide (c ∈ df.cols)) with
  | none => Except.error (her2ErrMsg df.cols)
  | some her2_col =>
    let df := df.mapCol her2_col standardizeStatus
    let df := df.filterRows (her2PosNeg her2_col)
    match resolve_signal df.cols signal_preference with
    | none => Except.error "KeyError: None"
    | some signal_col =>
      let wanted := [her2_col, signal_col, "er_status", "pr_status",
        "vital_status", "histological_type"]
      let cols_final := wanted.filter (fun c => decide (c ∈ df.cols))
      let out := (df.project cols_final).dropnaSubset [signal_col]
      let out := if her2_col ≠ "her2_final_status" then
          out.rename her2_col "her2_final_status"
        else out
      if out.cols.count "her2_final_status" ≠ 1 then
        Except.error "AttributeError: Can only use .str accessor with string values"
      else
        Except.ok (out.addColFrom "H" "her2_final_status" hIndicator, signal_col)

/-- `utils.clean_drugs`: normalize column names, require `drug_name` and
`viability` (else `ValueError`), lowercase and trim drug names, drop rows
missing either essential field, project to the canonical columns present. -/
def clean_drugs (t : Table) : Except String Table :=
  let df := t.normCols
  if "drug_name" ∉ df.cols ∨ "viability" ∉ df.cols then
    Except.error "Drug dataframe must contain 'drug_name' and 'viability'."
  else
    let df := df.mapCol "drug_name" (fun v => Cell.str (pyLower (pyStrip v.pyStr)))
    let df := df.dropnaSubset ["drug_name", "viability"]
    let keep_cols := ["cosmic_id", "drug_name", "dose", "viability"].filter
      (fun c => decide (c ∈ df.cols))
    Except.ok (df.project keep_cols)

/-- The reachable part of the `encode_vital_status` mapping dict.  In the
source the dict is `{"dead":1,"deceased":1,"1":1,1:1,True:1,"alive":0,"0":0,
0:0,False:0}` but the lookup key is always `str(x).strip().lower()`, a
string, so the integer keys are unreachable and the boolean keys collide with
the integer keys 1/0 at dict construction (Python hashes `True` like `1`):
only the five string keys can ever match. -/
def vital_mapping (s : String) : Option Int :=
  if s = "dead" || s = "deceased" || s = "1" then some 1
  else if s = "alive" || s = "0" then some 0
  else none

/-- `map_one` of `encode_vital_status` (named `mapOneOpt` here to avoid clashing with a library lemma): stringify, strip, lowercase, then
look the value up in the mapping (`None` when unmapped). -/
def mapOneOpt (x : Cell) : Option Int :=
  vital_mapping (pyLower (pyStrip x.pyStr))

/-- `map_one` as a cell transform: an unmapped value becomes `NaN`
(pandas `Series.map` yields `NaN` for `None`), a mapped one the integer code
(the final `astype(int)` of the source is folded in, since every surviving
value is already integral). -/
def mapOneCell (x : Cell) : Cell :=
  match mapOneOpt x with
  | some n => Cell.int n
  | none => Cell.null

/-- `utils.encode_vital_status`: table returned unchanged when the column is
absent; otherwise map every value through the vocabulary and raise a
`ValueError` naming the first five offending row indices when any value is
unmapped; on success the column holds the integer codes. -/
def encode_vital_status (t : Table) (col : String := "vital_status") :
    Except String Table :=
  if col ∉ t.cols then Except.ok t
  else
    let out := t.mapCol col mapOneCell
    if out.rows.any (fun ir => decide (ir.2.get col = Cell.null)) then
      let bad_rows := ((out.rows.filter (fun ir => decide (ir.2.get col = Cell.null))).map
        Prod.fst).take 5
      Except.error ("Unmapped vital_status values at rows: " ++ toString bad_rows)
    else Except.ok out

/-- `Series.clip(lo, hi)` on one value (`np.clip` semantics). -/
def clipQ (lo hi q : ℚ) : ℚ := min (max q lo) hi

/-- The dose value used for filtering: `out["dose"].fillna(-1)` after the
numeric coercion, i.e. a null dose compares as `-1`. -/
def doseValQ (r : Row) : ℚ :=
  ((r.get "dose").toNum).getD (-1)

/-- The first phase of `validate_drugs_numeric`: coerce `dose` and
`viability` to numeric (when the columns are present), clip `viability` into
the configured range, and drop rows with a null `drug_name`/`viability`. -/
def coerceDropna (t : Table) (clip_viability : ℚ × ℚ) : Table :=
  let out := t
  let out := if "dose" ∈ out.cols then
      out.mapCol "dose" (fun v => Cell.ofNumOpt v.toNum)
    else out
  let out := if "viability" ∈ out.cols then
      out.mapCol "viability" (fun v =>
        Cell.ofNumOpt (v.toNum.map (clipQ clip_viability.1 clip_viability.2)))
    else out
  out.dropnaSubset (["drug_name", "viability"].filter (fun c => decide (c ∈ out.cols)))

/-- `utils.validate_drugs_numeric`: numeric coercion and essential-field
dropna, then the dose filter — null doses compare as `-1`, and rows are kept
by `dose >= min_dose` when `keep_zero_dose` else `dose > min_dose`. -/
def validate_drugs_numeric (t : Table) (clip_viability : ℚ × ℚ := (0, 200))
    (min_dose : ℚ := 0) (keep_zero_dose : Bool := true) : Table :=
  let out := coerceDropna t clip_viability
  if "dose" ∈ out.cols then
    if keep_zero_dose then out.filterRows (fun r => decide (min_dose ≤ doseValQ r))
    else out.filterRows (fun r => decide (min_dose < doseValQ r))
  else out

/-! ### Statistics (`stats.py`) -/

/-- Insertion into a weakly sorted list of rationals. -/
def insertSorted (q : ℚ) : List ℚ → List ℚ
  | [] => [q]
  | a :: rest => if q ≤ a then q :: a :: rest else a :: insertSorted q rest

/-- Insertion sort (ascending) on rationals. -/
def sortQ (l : List ℚ) : List ℚ := l.foldr insertSorted []

/-- `Series.median()`: skip nulls upstream, sort, take the middle element
(odd length) or the mean of the two middle elements (even length); `none`
models the `NaN` median of an empty series. -/
def medianQ (l : List ℚ) : Option ℚ :=
  let s := sortQ l
  let n := s.length
  if n = 0 then none
  else if n % 2 = 1 then s.get? (n / 2)
  else
    match s.get? (n / 2 - 1), s.get? (n / 2) with
    | some a, some b => some ((a + b) / 2)
    | _, _ => none

/-- The non-null numeric values of a column, in row order (what
`df[signal_col].median()` aggregates over). -/
def signalValues (t : Table) (signal_col : String) : List ℚ :=
  t.rows.filterMap (fun ir => (ir.2.get signal_col).toNum)

/-- The `np.where(out[signal_col] >= median_val, "High", "Low")` transform on
one cell: a null or non-numeric signal (or an undefined median) compares
false, hence `"Low"`. -/
def groupCell (median_val : Option ℚ) (v : Cell) : Cell :=
  Cell.str (match v.toNum, median_val with
    | some q, some m => if m ≤ q then "High" else "Low"
    | _, _ => "Low")

/-- `stats.add_her2_group_by_median`: add a `her2_group` column by a median
cut on the signal column and return the median (`none` models the `NaN`
median of an all-null column). -/
def add_her2_group_by_median (t : Table) (signal_col : String) :
    Table × Option ℚ :=
  let out := t
  let median_val := medianQ (signalValues out signal_col)
  let out := out.addColFrom "her2_group" signal_col (groupCell median_val)
  (out, median_val)

/-- Count of rows with `her2_group == g` and `vital_status == v` — one cell
of the `pd.crosstab(df["her2_group"], df["vital_status"])` table restricted
to the integer columns 0/1 that `survival_chi2_fisher` keeps. -/
def vitalCount (t : Table) (g : String) (v : Int) : Nat :=
  (t.rows.filter (fun ir =>
    decide (ir.2.get "her2_group" = Cell.str g ∧ ir.2.get "vital_status" = Cell.int v))).length

/-- Whether group label `g` appears as a row label of the crosstab:
`pd.crosstab` drops pairs with a null on either side, so the label exists
exactly when some row has that group and a non-null `vital_status`. -/
def labelPresent (t : Table) (g : String) : Bool :=
  t.rows.any (fun ir =>
    decide (ir.2.get "her2_group" = Cell.str g ∧ ir.2.get "vital_status" ≠ Cell.null))

/-- The contingency-table construction of `stats.survival_chi2_fisher`
(the repository-owned data flow: crosstab, zero-filling of missing 0/1
*columns*, and the `ct.loc["High"/"Low", 1/0]` lookups that build the 2×2
Fisher table `[[High-deceased, High-alive], [Low-deceased, Low-alive]]`).
The chi-square and Fisher tests themselves are external library routines
applied to these counts and are outside the embedding.  Absent columns raise
a pandas lookup error, and a group label absent from the crosstab makes
`ct.loc[g, ·]` raise a `KeyError` — the zero-fill loop only ever adds
missing `vital_status` columns, never missing group rows. -/
def survival_table (t : Table) : Except String (Nat × Nat × Nat × Nat) :=
  if "her2_group" ∉ t.cols then Except.error "KeyError: her2_group"
  else if "vital_status" ∉ t.cols then Except.error "KeyError: vital_status"
  else if !(labelPresent t "High") then Except.error "KeyError: High"
  else if !(labelPresent t "Low") then Except.error "KeyError: Low"
  else Except.ok
    (vitalCount t "High" 1, vitalCount t "High" 0,
     vitalCount t "Low" 1, vitalCount t "Low" 0)

/-! ### Store-level embedding (for the no-input-mutation contract)

Python passes DataFrames by reference, so "the function never mutates the
caller's table" is a statement about a heap.  The store model makes that
heap explicit: a `Store` is a list of tables, a DataFrame variable is an
index into it, `df.copy()` allocates a fresh slot, and in-place statements
such as `df.columns = ...` or `df[col] = ...` write to the slot their target
variable points at.  Each `...S` function below mirrors the source
statement by statement with this discipline; the pure functions above are
the value-level view of the same code. -/

/-- The heap of live DataFrames. -/
abbrev Store := List Table

/-- Dereference a DataFrame variable. -/
def getRef (σ : Store) (r : Nat) : Table :=
  σ.getD r ⟨[], []⟩

/-- In-place write through a DataFrame variable. -/
def setRef (σ : Store) (r : Nat) (t : Table) : Store :=
  σ.set r t

/-- Allocate a fresh slot holding `t`; its index is the old store length. -/
def alloc (σ : Store) (t : Table) : Store :=
  σ ++ [t]

/-- Store-level `clean_mutations`: `df = mutations_df.copy()` allocates,
column normalization and the status standardization write in place to the
copy, each `....copy()` rebinding allocates again, and `out["H"] = ...`
writes to the final output frame.  The input slot `r` is never a write
target. -/
def clean_mutationsS (σ : Store) (r : Nat)
    (signal_preference : Option (List String) := none) :
    Store × Except String (Nat × String) :=
  -- df = mutations_df.copy()
  let d := σ.length
  let σ := alloc σ (getRef σ r)
  -- df.columns = [to_snake(c) for c in df.columns]
  let σ := setRef σ d (getRef σ d).normCols
  match her2_col_candidates.find? (fun c => decide (c ∈ (getRef σ d).cols)) with
  | none => (σ, Except.error (her2ErrMsg (getRef σ d).cols))
  | some her2_col =>
    -- df[her2_col] = df[her2_col].astype(str).str.strip().str.capitalize()
    let σ := setRef σ d ((getRef σ d).mapCol her2_col standardizeStatus)
    -- df = df[df[her2_col].isin(["Positive", "Negative"])].copy()
    let d2 := σ.length
    let σ := alloc σ ((getRef σ d).filterRows (her2PosNeg her2_col))
    match resolve_signal (getRef σ d2).cols signal_preference with
    | none => (σ, Except.error "KeyError: None")
    | some signal_col =>
      let wanted := [her2_col, signal_col, "er_status", "pr_status",
        "vital_status", "histological_type"]
      let cols_final := wanted.filter (fun c => decide (c ∈ (getRef σ d2).cols))
      -- out = df[cols_final].dropna(subset=[signal_col]).copy()
      let o := σ.length
      let σ := alloc σ (((getRef σ d2).project cols_final).dropnaSubset [signal_col])
      -- out = out.rename(columns={her2_col: "her2_final_status"})
      let o2 := σ.length
      let σ := if her2_col ≠ "her2_final_status" then
          alloc σ ((getRef σ o).rename her2_col "her2_final_status")
        else alloc σ (getRef σ o)
      if (getRef σ o2).cols.count "her2_final_status" ≠ 1 then
        (σ, Except.error "AttributeError: Can only use .str accessor with string values")
      else
        -- out["H"] = (...).astype(int)
        let σ := setRef σ o2 ((getRef σ o2).addColFrom "H" "her2_final_status" hIndicator)
        (σ, Except.ok (o2, signal_col))

/-- Store-level `clean_drugs`: allocate the working copy, write the
normalized headers and drug names in place, and rebind `df` to fresh frames
for the dropna and the final projection. -/
def clean_drugsS (σ : Store) (r : Nat) : Store × Except String Nat :=
  -- df = drug_df.copy()
  let d := σ.length
  let σ := alloc σ (getRef σ r)
  -- df.columns = [to_snake(c) for c in df.columns]
  let σ := setRef σ d (getRef σ d).normCols
  if "drug_name" ∉ (getRef σ d).cols ∨ "viability" ∉ (getRef σ d).cols then
    (σ, Except.error "Drug dataframe must contain 'drug_name' and 'viability'.")
  else
    -- df["drug_name"] = df["drug_name"].astype(str).str.strip().str.lower()
    let σ := setRef σ d ((getRef σ d).mapCol "drug_name"
      (fun v => Cell.str (pyLower (pyStrip v.pyStr))))
    -- df = df.dropna(subset=["drug_name", "viability"])
    let d2 := σ.length
    let σ := alloc σ ((getRef σ d).dropnaSubset ["drug_name", "viability"])
    -- df = df[keep_cols]
    let keep_cols := ["cosmic_id", "drug_name", "dose", "viability"].filter
      (fun c => decide (c ∈ (getRef σ d2).cols))
    let d3 := σ.length
    let σ := alloc σ ((getRef σ d2).project keep_cols)
    (σ, Except.ok d3)

/-- Store-level `encode_vital_status`: `out = df.copy()` allocates; when the
column is present the mapped (and on success integer-cast) values are written
in place to the copy. -/
def encode_vital_statusS (σ : Store) (r : Nat) (col : String := "vital_status") :
    Store × Except String Nat :=
  -- out = df.copy()
  let o := σ.length
  let σ := alloc σ (getRef σ r)
  if col ∉ (getRef σ o).cols then (σ, Except.ok o)
  else
    -- out[col] = out[col].map(map_one)  (astype(int) folded in, see mapOneCell)
    let σ := setRef σ o ((getRef σ o).mapCol col mapOneCell)
    if (getRef σ o).rows.any (fun ir => decide (ir.2.get col = Cell.null)) then
      let bad_rows := (((getRef σ o).rows.filter
        (fun ir => decide (ir.2.get col = Cell.null))).map Prod.fst).take 5
      (σ, Except.error ("Unmapped vital_status values at rows: " ++ toString bad_rows))
    else (σ, Except.ok o)

/-- Store-level `validate_drugs_numeric`: allocate the working copy, write
the coerced `dose` and clipped `viability` columns in place, then rebind
`out` to fresh frames for the dropna and the dose filter. -/
def validate_drugs_numericS (σ : Store) (r : Nat)
    (clip_viability : ℚ × ℚ := (0, 200)) (min_dose : ℚ := 0)
    (keep_zero_dose : Bool := true) : Store × Nat :=
  -- out = df.copy()
  let o := σ.length
  let σ := alloc σ (getRef σ r)
  -- out["dose"] = pd.to_numeric(out["dose"], errors="coerce")
  let σ := if "dose" ∈ (getRef σ o).cols then
      setRef σ o ((getRef σ o).mapCol "dose" (fun v => Cell.ofNumOpt v.toNum))
    else σ
  -- out["viability"] = pd.to_numeric(...).clip(lo, hi)
  let σ := if "viability" ∈ (getRef σ o).cols then
      setRef σ o ((getRef σ o).mapCol "viability" (fun v =>
        Cell.ofNumOpt (v.toNum.map (clipQ clip_viability.1 clip_viability.2))))
    else σ
  -- out = out.dropna(subset=[...])
  let o2 := σ.length
  let σ := alloc σ ((getRef σ o).dropnaSubset
    (["drug_name", "viability"].filter (fun c => decide (c ∈ (getRef σ o).cols))))
  -- out = out[out["dose"].fillna(-1) >= / > min_dose]
  if "dose" ∈ (getRef σ o2).cols then
    let o3 := σ.length
    let σ := if keep_zero_dose then
        alloc σ ((getRef σ o2).filterRows (fun rw => decide (min_dose ≤ doseValQ rw)))
      else alloc σ ((getRef σ o2).filterRows (fun rw => decide (min_dose < doseValQ rw)))
    (σ, o3)
  else (σ, o2)

/-- Store-level `add_her2_group_by_median`: allocate the working copy, read
the median, write the `her2_group` column in place to the copy. -/
def add_her2_group_by_medianS (σ : Store) (r : Nat) (signal_col : String) :
    Store × Nat × Option ℚ :=
  -- out = df.copy()
  let o := σ.length
  let σ := alloc σ (getRef σ r)
  let median_val := medianQ (signalValues (getRef σ o) signal_col)
  -- out["her2_group"] = np.where(out[signal_col] >= median_val, "High", "Low")
  let σ := setRef σ o ((getRef σ o).addColFrom "her2_group" signal_col
    (groupCell median_val))
  (σ, o, median_val)

/-- One drug's entry of `stats.frac_below`: the fraction of non-null
viability measurements strictly below the threshold among rows whose
lowercased drug name matches, `none` (`NaN`) when there are no matches. -/
def fracOf (t : Table) (name : String) (thresh : ℚ) : Option ℚ :=
  let sub := (t.rows.filter (fun ir =>
    decide (ir.2.get "drug_name" = Cell.str name))).filterMap
    (fun ir => (ir.2.get "viability").toNum)
  if sub.length = 0 then none
  else some (((sub.filter (fun q => decide (q < thresh))).length : ℚ) / (sub.length : ℚ))

/-- Store-level `stats.frac_below`: allocate the working copy, lowercase the
drug names in place on the copy, then fold the per-drug fractions. -/
def frac_belowS (σ : Store) (r : Nat) (drugs : List String) (thresh : ℚ := 50) :
    Store × List (String × Option ℚ) :=
  -- d = df.copy()
  let c := σ.length
  let σ := alloc σ (getRef σ r)
  -- d["drug_name"] = d["drug_name"].astype(str).str.lower()
  let σ := setRef σ c ((getRef σ c).mapCol "drug_name"
    (fun v => Cell.str (pyLower v.pyStr)))
  (σ, drugs.map (fun drug => (drug, fracOf (getRef σ c) (pyLower drug) thresh)))

/-- The spec's median-split example: signal values 1,2,3,4. -/
def sigT4 : Table :=
  ⟨["s"], [(0, [("s", Cell.num 1)]), (1, [("s", Cell.num 2)]),
           (2, [("s", Cell.num 3)]), (3, [("s", Cell.num 4)])]⟩

/-- The spec's median-split example: signal values 1,2,3. -/
def sigT3 : Table :=
  ⟨["s"], [(0, [("s", Cell.num 1)]), (1, [("s", Cell.num 2)]),
           (2, [("s", Cell.num 3)])]⟩

/-! ### Auxiliary predicates used by the specification statements -/

/-- Substring test on character lists (used to state what an error message
does and does not mention). -/
def hasSub (needle : List Char) : List Char → Bool
  | [] => needle.isEmpty
  | c :: t => needle.isPrefixOf (c :: t) || hasSub needle t

/-- No character of the regex class `[.\-\s]` occurs. -/
def NoSep (l : List Char) : Prop := ∀ c ∈ l, isSep c = false

/-- No ASCII uppercase letter occurs. -/
def NoUpper (l : List Char) : Prop := ∀ c ∈ l, isUpperAscii c = false

/-- No two adjacent underscores occur. -/
def NoDub (l : List Char) : Prop :=
  List.Chain' (fun a b => ¬(a = '_' ∧ b = '_')) l

/-- Canonical snake_case shape: no separators, no uppercase, no repeated
underscores, and no underscore at either end — exactly the strings
`to_snake` leaves unchanged. -/
def Canon (l : List Char) : Prop :=
  NoSep l ∧ NoUpper l ∧ NoDub l ∧ l.head? ≠ some '_' ∧ l.getLast? ≠ some '_'

/-! ### Basic row and table lemmas -/

theorem Row.get_cons (k : String) (x : Cell) (r : Row) (c : String) :
    Row.get ((k, x) :: r) c = if c = k then x else Row.get r c := by
  simp only [Row.get, List.lookup_cons]
  by_cases h : c = k
  · simp [h]
  · simp [h, beq_false_of_ne h]

theorem lookup_setAll (r : Row) (c : String) (v : Cell) :
    List.lookup c (r.map (fun p => if p.1 = c then (c, v) else p)) =
      (List.lookup c r).map (fun _ => v) := by
  induction r with
  | nil => rfl
  | cons p rest ih =>
    obtain ⟨k, x⟩ := p
    by_cases h : k = c
    · subst h; simp [List.lookup_cons]
    · simp only [List.map_cons, if_neg h, List.lookup_cons, beq_false_of_ne (Ne.symm h)]
      exact ih

theorem lookup_setAll_ne (r : Row) (c c' : String) (v : Cell) (h : c' ≠ c) :
    List.lookup c' (r.map (fun p => if p.1 = c then (c, v) else p)) =
      List.lookup c' r := by
  induction r with
  | nil => rfl
  | cons p rest ih =>
    obtain ⟨k, x⟩ := p
    by_cases hk : k = c
    · subst hk; simp [List.lookup_cons, beq_false_of_ne h, ih]
    · simp only [List.map_cons, if_neg hk, List.lookup_cons]
      cases hck : (c' == k) <;> simp [ih]

theorem lookup_append_right (r s : Row) (c : String)
    (h : List.lookup c r = none) : List.lookup c (r ++ s) = List.lookup c s := by
  induction r with
  | nil => rfl
  | cons p rest ih =>
    obtain ⟨k, x⟩ := p
    simp only [List.lookup_cons, List.cons_append] at h ⊢
    cases hck : (c == k)
    · simp only [hck] at h ⊢
      exact ih h
    · simp [hck] at h

theorem lookup_append_left (r s : Row) (c : String) (w : Cell)
    (h : List.lookup c r = some w) : List.lookup c (r ++ s) = some w := by
  induction r with
  | nil => simp at h
  | cons p rest ih =>
    obtain ⟨k, x⟩ := p
    simp only [List.lookup_cons, List.cons_append] at h ⊢
    cases hck : (c == k)
    · simp only [hck] at h ⊢
      exact ih h
    · simpa [hck] using h

theorem Row.get_set_self (r : Row) (c : String) (v : Cell) :
    (r.set c v).get c = v := by
  unfold Row.set
  split
  · rename_i hex
    obtain ⟨w, hw⟩ := Option.isSome_iff_exists.mp hex
    simp [Row.get, lookup_setAll r c v, hw]
  · rename_i hex
    have h0 : List.lookup c r = none := Option.not_isSome_iff_eq_none.mp hex
    simp [Row.get, lookup_append_right r _ c h0, List.lookup_cons]

theorem Row.get_set_ne (r : Row) (c c' : String) (v : Cell) (h : c' ≠ c) :
    (r.set c v).get c' = r.get c' := by
  unfold Row.set
  split
  · simp [Row.get, lookup_setAll_ne r c c' v h]
  · cases h0 : List.lookup c' r with
    | some w => simp [Row.get, lookup_append_left r _ c' w h0, h0]
    | none =>
      simp [Row.get, lookup_append_right r _ c' h0, List.lookup_cons,
        beq_false_of_ne h, h0]

/-! ### C2 — vital-status encoding of booleans -/

/-- C2: the claim says `encodeVitalStatus` maps an input value `true` (or the
string `"true"`) to 1 and `false` (or `"false"`) to 0.  The code does not:
the lookup key is `str(x).strip().lower()`, for which the mapping dict holds
no `"true"`/`"false"` entry (its `True`/`False` keys collide with the integer
keys and are unreachable through a string lookup), so boolean and
`"true"`/`"false"` inputs raise the unmapped-value error.  This theorem
evaluates the encoder at those inputs. -/
theorem encode_vital_status_bool_unmapped :
    encode_vital_status ⟨["vital_status"], [(0, [("vital_status", Cell.bool true)])]⟩ =
      Except.error "Unmapped vital_status values at rows: [0]" ∧
    encode_vital_status ⟨["vital_status"],
      [(0, [("vital_status", Cell.str "true")]),
       (1, [("vital_status", Cell.bool false)]),
       (2, [("vital_status", Cell.str "false")])]⟩ =
      Except.error "Unmapped vital_status values at rows: [0, 1, 2]" ∧
    encode_vital_status ⟨["vital_status"],
      [(0, [("vital_status", Cell.str "Dead")]), (1, [("vital_status", Cell.int 1)]),
       (2, [("vital_status", Cell.int 0)])]⟩ =
      Except.ok ⟨["vital_status"],
        [(0, [("vital_status", Cell.int 1)]), (1, [("vital_status", Cell.int 1)]),
         (2, [("vital_status", Cell.int 0)])]⟩ := by
  refine ⟨?_, ?_, ?_⟩ <;> rfl

/-! ### C3 — clean_drugs schema error -/

/-- C3 counterexample: the claim says the `clean_drugs` schema-error message
includes a sample of the actually-available column names.  On a table whose
only column is `foo` the raised message is the fixed string naming just the
two required columns; `"foo"` does not occur in it. -/
theorem clean_drugs_message_omits_available_columns :
    clean_drugs ⟨["foo"], []⟩ =
      Except.error "Drug dataframe must contain 'drug_name' and 'viability'." ∧
    hasSub "foo".toList
      "Drug dataframe must contain 'drug_name' and 'viability'.".toList = false := by
  exact ⟨rfl, by decide⟩

/-- C3 (amended): when, after column-name normalization, `drug_name` or
`viability` is missing, `clean_drugs` fails with the fixed `ValueError`
message, which names both required columns (but carries no sample of the
available columns). -/
theorem clean_drugs_schema_error (t : Table)
    (h : "drug_name" ∉ t.normCols.cols ∨ "viability" ∉ t.normCols.cols) :
    clean_drugs t =
      Except.error "Drug dataframe must contain 'drug_name' and 'viability'." ∧
    hasSub "drug_name".toList
      "Drug dataframe must contain 'drug_name' and 'viability'.".toList = true ∧
    hasSub "viability".toList
      "Drug dataframe must contain 'drug_name' and 'viability'.".toList = true := by
  refine ⟨?_, by decide, by decide⟩
  unfold clean_drugs
  rw [if_pos h]

/-- Witness for `clean_drugs_schema_error` at a concrete table. -/
theorem clean_drugs_schema_error_witness :
    clean_drugs ⟨["foo"], [(0, [("foo", Cell.int 3)])]⟩ =
      Except.error "Drug dataframe must contain 'drug_name' and 'viability'." :=
  (clean_drugs_schema_error ⟨["foo"], [(0, [("foo", Cell.int 3)])]⟩ (by decide)).1


/-! ### Table-level helper lemmas -/

theorem mapCol_cols_of_mem (t : Table) (c : String) (f : Cell → Cell)
    (h : c ∈ t.cols) : (t.mapCol c f).cols = t.cols := by
  simp [Table.mapCol, Table.addColFrom, h]

theorem Table.filterRows_cols (t : Table) (p : Row → Bool) :
    (t.filterRows p).cols = t.cols := rfl

theorem Table.dropnaSubset_cols (t : Table) (cs : List String) :
    (t.dropnaSubset cs).cols = t.cols := rfl

theorem coerceDropna_cols (t : Table) (cv : ℚ × ℚ) :
    (coerceDropna t cv).cols = t.cols := by
  unfold coerceDropna
  by_cases hd : "dose" ∈ t.cols
  · by_cases hv : "viability" ∈ t.cols
    · simp [hd, hv, mapCol_cols_of_mem, Table.dropnaSubset_cols]
    · simp [hd, hv, mapCol_cols_of_mem, Table.dropnaSubset_cols]
  · by_cases hv : "viability" ∈ t.cols
    · simp [hd, hv, mapCol_cols_of_mem, Table.dropnaSubset_cols]
    · simp [hd, hv, Table.dropnaSubset_cols]

/-- Membership in the result of `validate_drugs_numeric` implies membership
in its pre-dose-filter stage. -/
theorem validate_rows_subset (t : Table) (cv : ℚ × ℚ) (md : ℚ) (kz : Bool) :
    ∀ ir ∈ (validate_drugs_numeric t cv md kz).rows,
      ir ∈ (coerceDropna t cv).rows := by
  intro ir h
  unfold validate_drugs_numeric at h
  by_cases hd : "dose" ∈ (coerceDropna t cv).cols
  · simp only [hd, if_true] at h
    split at h <;> exact (List.mem_filter.mp h).1
  · simp only [hd, if_false] at h
    exact h

/-- Every row surviving `coerceDropna` carries a clipped, non-null viability
value (when the table has a `viability` column and the clip range is
well-formed). -/
theorem coerceDropna_viability (t : Table) (cv : ℚ × ℚ) (hlh : cv.1 ≤ cv.2)
    (hv : "viability" ∈ t.cols) :
    ∀ ir ∈ (coerceDropna t cv).rows,
      ∃ q, ir.2.get "viability" = Cell.num q ∧ cv.1 ≤ q ∧ q ≤ cv.2 := by
  intro ir h
  unfold coerceDropna at h
  rcases em ("dose" ∈ t.cols) with hd | hd
  all_goals
    simp only [hd, if_true, if_false, ite_true, ite_false] at h
  · rw [if_pos (by rw [mapCol_cols_of_mem _ _ _ hd]; exact hv)] at h
    rcases List.mem_filter.mp h with ⟨hmem, hpred⟩
    rcases List.mem_map.mp hmem with ⟨ir0, _, heq⟩
    subst heq
    dsimp only
    rw [Row.get_set_self]
    simp only [List.all_eq_true, decide_eq_true_eq] at hpred
    have hvk : "viability" ∈ List.filter (fun c => decide
        (c ∈ ((t.mapCol "dose" fun v => Cell.ofNumOpt v.toNum).mapCol "viability"
          fun v => Cell.ofNumOpt (Option.map (clipQ cv.1 cv.2) v.toNum)).cols))
        ["drug_name", "viability"] := by
      rw [List.mem_filter]
      refine ⟨by simp, ?_⟩
      rw [decide_eq_true_eq, mapCol_cols_of_mem, mapCol_cols_of_mem _ _ _ hd]
      · exact hv
      · rw [mapCol_cols_of_mem _ _ _ hd]; exact hv
    have hnn := hpred _ hvk
    rw [Row.get_set_self] at hnn
    cases ho : (ir0.2.get "viability").toNum with
    | none => rw [ho] at hnn; simp [Cell.ofNumOpt] at hnn
    | some q0 =>
        exact ⟨clipQ cv.1 cv.2 q0, rfl, le_min (le_max_right _ _) hlh, min_le_right _ _⟩
  · rw [if_pos hv] at h
    rcases List.mem_filter.mp h with ⟨hmem, hpred⟩
    rcases List.mem_map.mp hmem with ⟨ir0, _, heq⟩
    subst heq
    dsimp only
    rw [Row.get_set_self]
    simp only [List.all_eq_true, decide_eq_true_eq] at hpred
    have hvk : "viability" ∈ List.filter (fun c => decide
        (c ∈ (t.mapCol "viability"
          fun v => Cell.ofNumOpt (Option.map (clipQ cv.1 cv.2) v.toNum)).cols))
        ["drug_name", "viability"] := by
      rw [List.mem_filter]
      refine ⟨by simp, ?_⟩
      rw [decide_eq_true_eq, mapCol_cols_of_mem _ _ _ hv]
      exact hv
    have hnn := hpred _ hvk
    rw [Row.get_set_self] at hnn
    cases ho : (ir0.2.get "viability").toNum with
    | none => rw [ho] at hnn; simp [Cell.ofNumOpt] at hnn
    | some q0 =>
        exact ⟨clipQ cv.1 cv.2 q0, rfl, le_min (le_max_right _ _) hlh, min_le_right _ _⟩

/-! ### C5 — viability coercion and clipping -/

/-- C5: after `validate_drugs_numeric`, every viability value of the
returned table is non-null and lies in the configured clip range
`[lo, hi]` (stated for a well-formed range on a table that has the
`viability` column); and on the spec's concrete example, viability inputs
`[-10, 50, 999]` with clip range `(0, 200)` come out as `[0, 50, 200]`. -/
theorem validate_drugs_viability_in_range (t : Table) (lo hi md : ℚ) (kz : Bool)
    (h1 : lo ≤ hi) (h2 : "viability" ∈ t.cols) :
    (∀ ir ∈ (validate_drugs_numeric t (lo, hi) md kz).rows,
      ∃ q, ir.2.get "viability" = Cell.num q ∧ lo ≤ q ∧ q ≤ hi) ∧
    validate_drugs_numeric ⟨["viability"],
      [(0, [("viability", Cell.num (-10))]), (1, [("viability", Cell.num 50)]),
       (2, [("viability", Cell.num 999)])]⟩ (0, 200) 0 true =
      ⟨["viability"],
       [(0, [("viability", Cell.num 0)]), (1, [("viability", Cell.num 50)]),
        (2, [("viability", Cell.num 200)])]⟩ := by
  constructor
  · intro ir h
    exact coerceDropna_viability t (lo, hi) h1 h2 ir (validate_rows_subset t (lo, hi) md kz ir h)
  · rfl

/-- Witness for `validate_drugs_viability_in_range` at the spec's example
table. -/
theorem validate_drugs_viability_in_range_witness :
    ((0 : ℚ) ≤ 200 ∧ "viability" ∈ (Table.mk ["viability"]
      [(0, [("viability", Cell.num (-10))]), (1, [("viability", Cell.num 50)]),
       (2, [("viability", Cell.num 999)])]).cols) ∧
    (∀ ir ∈ (validate_drugs_numeric ⟨["viability"],
      [(0, [("viability", Cell.num (-10))]), (1, [("viability", Cell.num 50)]),
       (2, [("viability", Cell.num 999)])]⟩ (0, 200) 0 true).rows,
      ∃ q, ir.2.get "viability" = Cell.num q ∧ 0 ≤ q ∧ q ≤ 200) :=
  ⟨⟨by norm_num, by decide⟩,
   (validate_drugs_viability_in_range _ 0 200 0 true (by norm_num) (by decide)).1⟩

/-! ### C4 — dose filtering with null treated as -1 -/

/-- C4: when a `dose` column is present, `validate_drugs_numeric` keeps a
row of its coerce/dropna stage iff the dose (with nulls compared as `-1`,
see `doseValQ`) satisfies `dose ≥ min_dose` when `keep_zero_dose` is true
and `dose > min_dose` otherwise; consequently under the default
configuration (`min_dose = 0`, `keep_zero_dose = true`) every surviving row
has a non-null dose. -/
theorem validate_drugs_dose_filter (t : Table) (cv : ℚ × ℚ) (md : ℚ) (kz : Bool)
    (hd : "dose" ∈ t.cols) :
    (∀ ir, ir ∈ (validate_drugs_numeric t cv md kz).rows ↔
        ir ∈ (coerceDropna t cv).rows ∧
          (if kz then md ≤ doseValQ ir.2 else md < doseValQ ir.2)) ∧
    (∀ ir ∈ (validate_drugs_numeric t cv).rows, ir.2.get "dose" ≠ Cell.null) := by
  have hd' : "dose" ∈ (coerceDropna t cv).cols := by
    rw [coerceDropna_cols]; exact hd
  constructor
  · intro ir
    unfold validate_drugs_numeric
    simp only [hd', if_true]
    cases kz with
    | true =>
        simp only [if_true, Table.filterRows, List.mem_filter, decide_eq_true_eq]
    | false =>
        simp only [Bool.false_eq_true, if_false, Table.filterRows, List.mem_filter,
          decide_eq_true_eq]
  · intro ir h hnull
    unfold validate_drugs_numeric at h
    simp only [hd', if_true] at h
    have hk := (List.mem_filter.mp h).2
    rw [decide_eq_true_eq] at hk
    rw [doseValQ, hnull] at hk
    simp only [Cell.toNum, Option.getD_none] at hk
    norm_num at hk

/-- Witness for `validate_drugs_dose_filter`: on a concrete table with a
null-dose row and a dose-2 row, the default configuration drops the
null-dose row. -/
theorem validate_drugs_dose_filter_witness :
    "dose" ∈ (Table.mk ["dose"]
      [(0, [("dose", Cell.null)]), (1, [("dose", Cell.num 2)])]).cols ∧
    (∀ ir ∈ (validate_drugs_numeric ⟨["dose"],
      [(0, [("dose", Cell.null)]), (1, [("dose", Cell.num 2)])]⟩ (0, 200)).rows,
      ir.2.get "dose" ≠ Cell.null) :=
  ⟨by decide,
   (validate_drugs_dose_filter ⟨["dose"],
      [(0, [("dose", Cell.null)]), (1, [("dose", Cell.num 2)])]⟩
      (0, 200) 0 true (by decide)).2⟩

/-! ### C7 — encode_vital_status contract -/

theorem mapOneCell_eq_null_iff (x : Cell) :
    mapOneCell x = Cell.null ↔ mapOneOpt x = none := by
  unfold mapOneCell
  cases h : mapOneOpt x <;> simp [h]

theorem mapOneOpt_val (x : Cell) (n : Int) (h : mapOneOpt x = some n) :
    n = 1 ∨ n = 0 := by
  unfold mapOneOpt vital_mapping at h
  split at h
  · left; exact (Option.some_inj.mp h).symm
  · split at h
    · right; exact (Option.some_inj.mp h).symm
    · cases h

/-- The mapped column is null at exactly the rows whose original value is
outside the recognized vocabulary. -/
theorem encode_any_iff (t : Table) (col : String) :
    ((t.mapCol col mapOneCell).rows.any
        (fun ir => decide (ir.2.get col = Cell.null)) = true) ↔
      ∃ ir ∈ t.rows, mapOneOpt (ir.2.get col) = none := by
  rw [List.any_eq_true]
  constructor
  · rintro ⟨ir', h1, h2⟩
    rcases List.mem_map.mp h1 with ⟨ir, hin, rfl⟩
    dsimp only at h2
    rw [decide_eq_true_eq, Row.get_set_self] at h2
    exact ⟨ir, hin, (mapOneCell_eq_null_iff _).mp h2⟩
  · rintro ⟨ir, hin, hno⟩
    refine ⟨(ir.1, ir.2.set col (mapOneCell (ir.2.get col))),
      List.mem_map_of_mem _ hin, ?_⟩
    dsimp only
    rw [decide_eq_true_eq, Row.get_set_self]
    exact (mapOneCell_eq_null_iff _).mpr hno

/-- The offending-row indices computed on the mapped table coincide with the
indices of the rows whose original value is unmapped. -/
theorem encode_bad_rows_list (col : String) (l : List (Nat × Row)) :
    ((l.map (fun ir => (ir.1, ir.2.set col (mapOneCell (ir.2.get col))))).filter
        (fun ir => decide (ir.2.get col = Cell.null))).map Prod.fst
      = (l.filter (fun ir => decide (mapOneOpt (ir.2.get col) = none))).map
          Prod.fst := by
  induction l with
  | nil => rfl
  | cons ir rest ih =>
    simp only [List.map_cons, List.filter_cons, Row.get_set_self,
      mapOneCell_eq_null_iff]
    by_cases h : mapOneOpt (ir.2.get col) = none
    · simp only [h, decide_True, if_true, List.map_cons, ih]
    · simp only [h, decide_False, Bool.false_eq_true, if_false, ih]

/-- C7: `encode_vital_status` (i) returns the table unchanged when the
column is absent; (ii) when the column is present, raises iff some value of
the column is outside the recognized vocabulary; (iii) every raised message
names (up to) the first five offending row indices; (iv) on success with the
column present, every value of the column is the integer 0 or 1. -/
theorem encode_vital_status_contract (t : Table) (col : String) :
    (col ∉ t.cols → encode_vital_status t col = Except.ok t) ∧
    (col ∈ t.cols →
      ((∃ e, encode_vital_status t col = Except.error e) ↔
        ∃ ir ∈ t.rows, mapOneOpt (ir.2.get col) = none)) ∧
    (∀ e, encode_vital_status t col = Except.error e →
      e = "Unmapped vital_status values at rows: " ++
        toString (((t.rows.filter (fun ir =>
          decide (mapOneOpt (ir.2.get col) = none))).map Prod.fst).take 5)) ∧
    (col ∈ t.cols → ∀ u, encode_vital_status t col = Except.ok u →
      ∀ ir ∈ u.rows, ir.2.get col = Cell.int 0 ∨ ir.2.get col = Cell.int 1) := by
  by_cases hc : col ∈ t.cols
  · have key : encode_vital_status t col =
        (if (t.mapCol col mapOneCell).rows.any
            (fun ir => decide (ir.2.get col = Cell.null)) then
          Except.error ("Unmapped vital_status values at rows: " ++
            toString ((((t.mapCol col mapOneCell).rows.filter
              (fun ir => decide (ir.2.get col = Cell.null))).map Prod.fst).take 5))
        else Except.ok (t.mapCol col mapOneCell)) := by
      unfold encode_vital_status
      rw [if_neg (fun h => h hc)]
    by_cases ha : (t.mapCol col mapOneCell).rows.any
        (fun ir => decide (ir.2.get col = Cell.null)) = true
    · simp only [ha, eq_self_iff_true, if_true] at key
      refine ⟨fun h => absurd hc h, fun _ => ?_, fun e he => ?_, fun _ u hu => ?_⟩
      · exact ⟨fun _ => (encode_any_iff t col).mp ha, fun _ => ⟨_, key⟩⟩
      · rw [key] at he
        have h2 := Except.error.inj he
        rw [← h2]
        simp only [Table.mapCol, Table.addColFrom]
        rw [encode_bad_rows_list]
      · rw [key] at hu; cases hu
    · rw [Bool.not_eq_true] at ha
      simp only [ha, Bool.false_eq_true, if_false] at key
      refine ⟨fun h => absurd hc h, fun _ => ?_, fun e he => ?_, fun _ u hu => ?_⟩
      · constructor
        · rintro ⟨e, he⟩; rw [key] at he; cases he
        · intro hex
          exact absurd ((encode_any_iff t col).mpr hex)
            (by rw [ha]; exact Bool.false_ne_true)
      · rw [key] at he; cases he
      · rw [key] at hu
        have hu' := Except.ok.inj hu
        rw [← hu']
        intro ir hin
        rcases List.mem_map.mp hin with ⟨ir0, hin0, rfl⟩
        dsimp only
        rw [Row.get_set_self]
        cases ho : mapOneOpt (ir0.2.get col) with
        | none =>
            exfalso
            exact absurd ((encode_any_iff t col).mpr ⟨ir0, hin0, ho⟩)
              (by rw [ha]; exact Bool.false_ne_true)
        | some n =>
            rcases mapOneOpt_val _ _ ho with h1 | h0
            · right; rw [mapOneCell, ho, h1]
            · left; rw [mapOneCell, ho, h0]
  · have key : encode_vital_status t col = Except.ok t := by
      unfold encode_vital_status
      rw [if_pos hc]
    refine ⟨fun _ => key, fun h => absurd h hc, fun e he => ?_, fun h => absurd h hc⟩
    rw [key] at he; cases he

/-- Witness for `encode_vital_status_contract`: a table without the column
is returned unchanged, and the spec's example (with `"unknown"` at row 4)
raises. -/
theorem encode_vital_status_contract_witness :
    (encode_vital_status ⟨["x"], [(0, [("x", Cell.int 7)])]⟩ "vital_status" =
      Except.ok ⟨["x"], [(0, [("x", Cell.int 7)])]⟩) ∧
    (∃ e, encode_vital_status ⟨["vital_status"],
      [(0, [("vital_status", Cell.str "Dead")]), (1, [("vital_status", Cell.str "ALIVE")]),
       (2, [("vital_status", Cell.int 1)]), (3, [("vital_status", Cell.int 0)]),
       (4, [("vital_status", Cell.str "unknown")])]⟩ "vital_status" = Except.error e) :=
  ⟨(encode_vital_status_contract ⟨["x"], [(0, [("x", Cell.int 7)])]⟩
      "vital_status").1 (by decide),
   ((encode_vital_status_contract ⟨["vital_status"],
      [(0, [("vital_status", Cell.str "Dead")]), (1, [("vital_status", Cell.str "ALIVE")]),
       (2, [("vital_status", Cell.int 1)]), (3, [("vital_status", Cell.int 0)]),
       (4, [("vital_status", Cell.str "unknown")])]⟩ "vital_status").2.1
      (by decide)).mpr
      ⟨(4, [("vital_status", Cell.str "unknown")]), by decide, by rfl⟩⟩

/-! ### C8 — median split -/

/-- C8: `add_her2_group_by_median` returns the median of the signal column
and tags each row `"High"` exactly when its signal value is ≥ the median
(ties to High), `"Low"` otherwise; on the spec's examples, values `[1,2,3,4]`
(median 5/2) give groups Low,Low,High,High and values `[1,2,3]` (median 2)
give groups Low,High,High — the value-2 row ties High. -/
theorem add_her2_group_by_median_spec (t : Table) (sc : String) (m : ℚ)
    (hm : medianQ (signalValues t sc) = some m) :
    ((add_her2_group_by_median t sc).2 = some m ∧
     ∀ ir ∈ (add_her2_group_by_median t sc).1.rows,
       ∃ ir0 ∈ t.rows,
         ir = (ir0.1, ir0.2.set "her2_group" (groupCell (some m) (ir0.2.get sc))) ∧
         (ir.2.get "her2_group" = Cell.str "High" ↔
           ∃ q, (ir0.2.get sc).toNum = some q ∧ m ≤ q)) ∧
    ((add_her2_group_by_median sigT4 "s").1.rows.map
        (fun ir => ir.2.get "her2_group") =
      [Cell.str "Low", Cell.str "Low", Cell.str "High", Cell.str "High"] ∧
     (add_her2_group_by_median sigT4 "s").2 = some (5 / 2 : ℚ)) ∧
    ((add_her2_group_by_median sigT3 "s").1.rows.map
        (fun ir => ir.2.get "her2_group") =
      [Cell.str "Low", Cell.str "High", Cell.str "High"] ∧
     (add_her2_group_by_median sigT3 "s").2 = some (2 : ℚ)) := by
  have hm4 : medianQ (signalValues sigT4 "s") = some ((5 : ℚ) / 2) := by
    rw [show medianQ (signalValues sigT4 "s") = some (((2 : ℚ) + 3) / 2) from rfl]
    norm_num
  refine ⟨⟨?_, ?_⟩, ⟨?_, ?_⟩, ⟨by decide, by decide⟩⟩
  · unfold add_her2_group_by_median
    dsimp only
    rw [hm]
  · intro ir hin
    unfold add_her2_group_by_median at hin
    dsimp only at hin
    rw [hm] at hin
    rcases List.mem_map.mp hin with ⟨ir0, hin0, rfl⟩
    refine ⟨ir0, hin0, rfl, ?_⟩
    dsimp only
    rw [Row.get_set_self]
    unfold groupCell
    cases ho : (ir0.2.get sc).toNum with
    | none =>
        dsimp only
        constructor
        · intro h; exact absurd h (by decide)
        · rintro ⟨q, hq, _⟩; cases hq
    | some q =>
        dsimp only
        by_cases hle : m ≤ q
        · rw [if_pos hle]
          exact ⟨fun _ => ⟨q, rfl, hle⟩, fun _ => rfl⟩
        · rw [if_neg hle]
          constructor
          · intro h; exact absurd h (by decide)
          · rintro ⟨q', hq', hle'⟩
            exact absurd (Option.some_inj.mp hq' ▸ hle') hle
  · unfold add_her2_group_by_median
    dsimp only
    rw [hm4]
    simp only [sigT4, Table.addColFrom, List.map_cons, List.map_nil,
      Row.get_set_self, Row.get_cons, groupCell, Cell.toNum]
    norm_num
  · unfold add_her2_group_by_median
    dsimp only
    rw [hm4]

/-- Witness for `add_her2_group_by_median_spec` at the `[1,2,3]` example
(median 2): the returned median is 2 and the value-2 row ties High. -/
theorem add_her2_group_by_median_spec_witness :
    medianQ (signalValues sigT3 "s") = some (2 : ℚ) ∧
    (add_her2_group_by_median sigT3 "s").2 = some (2 : ℚ) :=
  ⟨by decide, (add_her2_group_by_median_spec sigT3 "s" 2 (by decide)).1.1⟩

/-! ### C10 — survival contingency table -/

/-- C10 counterexample: a table that has a `"High"` row and a `"Low"` row,
yet fails the contingency construction with a lookup error, because the only
`"High"` row has a null `vital_status` and `pd.crosstab` drops it, so the
claim's "every input containing at least one High and one Low row succeeds"
is false as stated. -/
theorem survival_table_null_vital_counterexample :
    (∃ ir ∈ (Table.mk ["her2_group", "vital_status"]
      [(0, [("her2_group", Cell.str "High"), ("vital_status", Cell.null)]),
       (1, [("her2_group", Cell.str "Low"), ("vital_status", Cell.int 0)])]).rows,
      ir.2.get "her2_group" = Cell.str "High") ∧
    (∃ ir ∈ (Table.mk ["her2_group", "vital_status"]
      [(0, [("her2_group", Cell.str "High"), ("vital_status", Cell.null)]),
       (1, [("her2_group", Cell.str "Low"), ("vital_status", Cell.int 0)])]).rows,
      ir.2.get "her2_group" = Cell.str "Low") ∧
    survival_table ⟨["her2_group", "vital_status"],
      [(0, [("her2_group", Cell.str "High"), ("vital_status", Cell.null)]),
       (1, [("her2_group", Cell.str "Low"), ("vital_status", Cell.int 0)])]⟩ =
      Except.error "KeyError: High" := by
  refine ⟨⟨(0, [("her2_group", Cell.str "High"), ("vital_status", Cell.null)]),
    by decide, by decide⟩,
    ⟨(1, [("her2_group", Cell.str "Low"), ("vital_status", Cell.int 0)]),
    by decide, by decide⟩, rfl⟩

/-- C10 (amended): with both columns present, the 2×2 construction of
`survival_chi2_fisher` succeeds — returning the four counts, a missing
`vital_status` value contributing a zero count — exactly when both group
labels `"High"` and `"Low"` appear among rows with a non-null
`vital_status`; otherwise it fails with a lookup error naming the missing
group (row labels are never zero-filled, only the 0/1 columns are). -/
theorem survival_table_contract (t : Table)
    (h1 : "her2_group" ∈ t.cols) (h2 : "vital_status" ∈ t.cols) :
    (labelPresent t "High" = true → labelPresent t "Low" = true →
      survival_table t = Except.ok
        (vitalCount t "High" 1, vitalCount t "High" 0,
         vitalCount t "Low" 1, vitalCount t "Low" 0)) ∧
    ((∃ e, survival_table t = Except.error e) ↔
      (labelPresent t "High" = false ∨ labelPresent t "Low" = false)) ∧
    (∀ e, survival_table t = Except.error e →
      e = "KeyError: High" ∨ e = "KeyError: Low") := by
  unfold survival_table
  rw [if_neg (fun h => h h1), if_neg (fun h => h h2)]
  cases hH : labelPresent t "High" with
  | false =>
      simp only [Bool.not_false, if_true]
      refine ⟨?_, ?_, ?_⟩
      · intro hHt hLt
        exact absurd hHt (by simp)
      · constructor
        · intro _
          exact Or.inl trivial
        · intro _
          exact ⟨"KeyError: High", rfl⟩
      · intro e he
        exact Or.inl (Except.error.inj he).symm
  | true =>
      simp only [Bool.not_true, Bool.false_eq_true, if_false]
      cases hL : labelPresent t "Low" with
      | false =>
          simp only [Bool.not_false, if_true]
          refine ⟨?_, ?_, ?_⟩
          · intro _ hLt
            exact absurd hLt (by simp)
          · constructor
            · intro _
              exact Or.inr trivial
            · intro _
              exact ⟨"KeyError: Low", rfl⟩
          · intro e he
            exact Or.inr (Except.error.inj he).symm
      | true =>
          simp only [Bool.not_true, Bool.false_eq_true, if_false]
          refine ⟨?_, ?_, ?_⟩
          · intro _ _
            trivial
          · constructor
            · rintro ⟨e, he⟩
              cases he
            · rintro (h | h)
              · exact absurd h (by simp)
              · exact absurd h (by simp)
          · intro e he
            cases he

/-- Witness for `survival_table_contract`: a concrete table with one
(High, deceased) and one (Low, alive) row yields the 2×2 counts
`(1, 0, 0, 1)`. -/
theorem survival_table_contract_witness :
    survival_table ⟨["her2_group", "vital_status"],
      [(0, [("her2_group", Cell.str "High"), ("vital_status", Cell.int 1)]),
       (1, [("her2_group", Cell.str "Low"), ("vital_status", Cell.int 0)])]⟩ =
      Except.ok (1, 0, 0, 1) :=
  (survival_table_contract ⟨["her2_group", "vital_status"],
      [(0, [("her2_group", Cell.str "High"), ("vital_status", Cell.int 1)]),
       (1, [("her2_group", Cell.str "Low"), ("vital_status", Cell.int 0)])]⟩
    (by decide) (by decide)).1 (by decide) (by decide)

/-! ### C1 — clean_mutations invariant -/

theorem renameRow_get_ne (r : Row) (old nw c : String) (h1 : c ≠ old)
    (h2 : c ≠ nw) :
    Row.get (r.map (fun p => (if p.1 = old then nw else p.1, p.2))) c =
      r.get c := by
  induction r with
  | nil => rfl
  | cons p rest ih =>
    obtain ⟨k, x⟩ := p
    by_cases hk : k = old
    · subst hk
      rw [List.map_cons]
      dsimp only
      rw [if_pos rfl, Row.get_cons, Row.get_cons, if_neg h2, if_neg h1, ih]
    · rw [List.map_cons]
      dsimp only
      rw [if_neg hk, Row.get_cons, Row.get_cons, ih]

theorem find?_mem {l cols : List String} {a : String}
    (h : l.find? (fun c => decide (c ∈ cols)) = some a) : a ∈ cols := by
  have := List.find?_some h
  rwa [decide_eq_true_eq] at this

/-- If the HER2 column search settles on a later candidate, the canonical
name `her2_final_status` (the first candidate tried) is not available. -/
theorem her2_first_candidate {cols : List String} {a : String}
    (h : her2_col_candidates.find? (fun c => decide (c ∈ cols)) = some a)
    (hne : a ≠ "her2_final_status") : "her2_final_status" ∉ cols := by
  intro hmem
  apply hne
  unfold her2_col_candidates at h
  have hfc : List.find? (fun c => decide (c ∈ cols))
      ("her2_final_status" :: ["her2_status", "her2_status_final"]) =
      some "her2_final_status" :=
    List.find?_cons_of_pos _ (by simp only [decide_eq_true_eq]; exact hmem)
  rw [hfc] at h
  exact (Option.some_inj.mp h).symm

theorem hIndicator_ne_null (v : Cell) : hIndicator v ≠ Cell.null := by
  intro h
  unfold hIndicator at h
  cases h

theorem projRow_get_head (ρ : Row) (c0 : String) (cs : List String) :
    Row.get ((c0 :: cs).map (fun c => (c, ρ.get c))) c0 = ρ.get c0 := by
  rw [List.map_cons, Row.get_cons, if_pos rfl]


/-- C1: for every input accepted by `clean_mutations` (a HER2-status column
found, the signal column resolved, and the run completing normally), every
row of the cleaned table has `her2_final_status` in exactly
{"Positive","Negative"}, a non-null value in the resolved signal column, and
`H = 1` iff `her2_final_status = "Positive"`. -/
theorem clean_mutations_invariant (t : Table) (pref : Option (List String))
    (out : Table) (sc : String)
    (h : clean_mutations t pref = Except.ok (out, sc)) :
    ∀ ir ∈ out.rows,
      (ir.2.get "her2_final_status" = Cell.str "Positive" ∨
       ir.2.get "her2_final_status" = Cell.str "Negative") ∧
      ir.2.get sc ≠ Cell.null ∧
      (ir.2.get "H" = Cell.int 1 ↔
        ir.2.get "her2_final_status" = Cell.str "Positive") := by
  unfold clean_mutations at h
  dsimp only at h
  split at h
  · exact Except.noConfusion h
  next her2_col hfind =>
    split at h
    · exact Except.noConfusion h
    next signal_col hres =>
      by_cases hr : her2_col = "her2_final_status"
      · subst hr
        have hno : ¬("her2_final_status" ≠ "her2_final_status") := fun hne => hne rfl
        rw [if_neg hno] at h
        split at h
        · exact Except.noConfusion h
        next hcount =>
        have hinj := Except.ok.inj h
        rw [Prod.mk.injEq] at hinj
        obtain ⟨hout, hsc⟩ := hinj
        subst hsc
        subst hout
        intro ir hin
        unfold Table.addColFrom at hin
        rcases List.mem_map.mp hin with ⟨irH, hinP, rfl⟩
        simp only [Table.dropnaSubset, Table.filterRows] at hinP
        rcases List.mem_filter.mp hinP with ⟨hinPr, hdrop⟩
        simp only [Table.project] at hinPr
        rcases List.mem_map.mp hinPr with ⟨ir0, hin0, rfl⟩
        rcases List.mem_filter.mp hin0 with ⟨-, hposb⟩
        simp only [her2PosNeg, decide_eq_true_eq] at hposb
        have hmem0 : "her2_final_status" ∈ t.normCols.cols := find?_mem hfind
        have hpc : (decide ("her2_final_status" ∈
            (t.normCols.mapCol "her2_final_status" standardizeStatus).cols)) = true := by
          rw [decide_eq_true_eq, mapCol_cols_of_mem _ _ _ hmem0]
          exact hmem0
        try dsimp only at hdrop ⊢
        rw [List.filter_cons] at hdrop ⊢
        rw [if_pos hpc] at hdrop ⊢
        rw [List.map_cons] at hdrop ⊢
        try dsimp only at hdrop ⊢
        simp only [List.all_cons, List.all_nil, Bool.and_true,
          decide_eq_true_eq] at hdrop
        have hfH : ("her2_final_status" : String) ≠ "H" := by decide
        refine ⟨?_, ?_, ?_⟩
        · rw [Row.get_set_ne _ _ _ _ hfH, Row.get_cons, if_pos rfl]
          exact hposb
        · by_cases hsH : signal_col = "H"
          · subst hsH
            rw [Row.get_set_self]
            exact hIndicator_ne_null _
          · rw [Row.get_set_ne _ _ _ _ hsH]
            exact hdrop
        · rw [Row.get_set_self, Row.get_set_ne _ _ _ _ hfH, Row.get_cons,
            if_pos rfl]
          rcases hposb with hp | hp
          · rw [hp]
            have e1 : hIndicator (Cell.str "Positive") = Cell.int 1 := by decide
            rw [e1]
            exact ⟨fun _ => rfl, fun _ => rfl⟩
          · rw [hp]
            have e0 : hIndicator (Cell.str "Negative") = Cell.int 0 := by decide
            rw [e0]
            constructor
            · intro hx; exact absurd hx (by decide)
            · intro hx; exact absurd hx (by decide)

      · rw [if_pos hr] at h
        split at h
        · exact Except.noConfusion h
        next hcount =>
          have hinj := Except.ok.inj h
          rw [Prod.mk.injEq] at hinj
          obtain ⟨hout, hsc⟩ := hinj
          subst hsc
          subst hout
          intro ir hin
          unfold Table.addColFrom at hin
          rcases List.mem_map.mp hin with ⟨irH, hinR, rfl⟩
          simp only [Table.rename] at hinR
          rcases List.mem_map.mp hinR with ⟨ir1, hin1, rfl⟩
          simp only [Table.dropnaSubset, Table.filterRows] at hin1
          rcases List.mem_filter.mp hin1 with ⟨hinPr, hdrop⟩
          simp only [Table.project] at hinPr
          rcases List.mem_map.mp hinPr with ⟨ir0, hin0, rfl⟩
          rcases List.mem_filter.mp hin0 with ⟨-, hposb⟩
          simp only [her2PosNeg, decide_eq_true_eq] at hposb
          have hmem0 : her2_col ∈ t.normCols.cols := find?_mem hfind
          have hpc : (decide (her2_col ∈
              (t.normCols.mapCol her2_col standardizeStatus).cols)) = true := by
            rw [decide_eq_true_eq, mapCol_cols_of_mem _ _ _ hmem0]
            exact hmem0
          have hscmem : signal_col ∈ t.normCols.cols := by
            unfold resolve_signal at hres
            have := find?_mem hres
            rwa [Table.filterRows_cols, mapCol_cols_of_mem _ _ _ hmem0] at this
          have hsf_ne : signal_col ≠ "her2_final_status" := by
            intro he
            exact her2_first_candidate hfind hr (he ▸ hscmem)
          have hsc_ne_h2 : signal_col ≠ her2_col := by
            intro he
            subst he
            apply hcount
            simp only [Table.rename, Table.dropnaSubset, Table.filterRows,
              Table.project] at *
            rw [List.filter_cons, if_pos hpc, List.filter_cons, if_pos hpc,
              List.map_cons, List.map_cons]
            try dsimp only
            rw [if_pos rfl]
            rw [List.count_cons_self, List.count_cons_self]
            omega
          try dsimp only at hdrop ⊢
          rw [List.filter_cons] at hdrop ⊢
          rw [if_pos hpc] at hdrop ⊢
          rw [List.map_cons] at hdrop ⊢
          try dsimp only at hdrop ⊢
          rw [List.map_cons]
          dsimp only
          rw [if_pos rfl]
          simp only [List.all_cons, List.all_nil, Bool.and_true,
            decide_eq_true_eq] at hdrop
          have hfH : ("her2_final_status" : String) ≠ "H" := by decide
          refine ⟨?_, ?_, ?_⟩
          · rw [Row.get_set_ne _ _ _ _ hfH, Row.get_cons, if_pos rfl]
            exact hposb
          · by_cases hsH : signal_col = "H"
            · subst hsH
              rw [Row.get_set_self]
              exact hIndicator_ne_null _
            · rw [Row.get_set_ne _ _ _ _ hsH]
              rw [Row.get_cons, if_neg hsf_ne]
              rw [renameRow_get_ne _ _ _ _ hsc_ne_h2 hsf_ne]
              rw [Row.get_cons, if_neg hsc_ne_h2] at hdrop
              exact hdrop
          · rw [Row.get_set_self, Row.get_set_ne _ _ _ _ hfH, Row.get_cons,
              if_pos rfl]
            rcases hposb with hp | hp
            · rw [hp]
              have e1 : hIndicator (Cell.str "Positive") = Cell.int 1 := by decide
              rw [e1]
              exact ⟨fun _ => rfl, fun _ => rfl⟩
            · rw [hp]
              have e0 : hIndicator (Cell.str "Negative") = Cell.int 0 := by decide
              rw [e0]
              constructor
              · intro hx; exact absurd hx (by decide)
              · intro hx; exact absurd hx (by decide)


/-- Witness for `clean_mutations_invariant` at a concrete accepted table. -/
theorem clean_mutations_invariant_witness :
    clean_mutations ⟨["HER2.Status", "pp_HER2"],
      [(0, [("HER2.Status", Cell.str "POSITIVE"), ("pp_HER2", Cell.num 1)]),
       (1, [("HER2.Status", Cell.str "negative"), ("pp_HER2", Cell.num 2)])]⟩ none =
      Except.ok (⟨["her2_final_status", "pp_her2", "H"],
        [(0, [("her2_final_status", Cell.str "Positive"), ("pp_her2", Cell.num 1),
              ("H", Cell.int 1)]),
         (1, [("her2_final_status", Cell.str "Negative"), ("pp_her2", Cell.num 2),
              ("H", Cell.int 0)])]⟩, "pp_her2") ∧
    ∀ ir ∈ (Table.mk ["her2_final_status", "pp_her2", "H"]
        [(0, [("her2_final_status", Cell.str "Positive"), ("pp_her2", Cell.num 1),
              ("H", Cell.int 1)]),
         (1, [("her2_final_status", Cell.str "Negative"), ("pp_her2", Cell.num 2),
              ("H", Cell.int 0)])]).rows,
      (ir.2.get "her2_final_status" = Cell.str "Positive" ∨
       ir.2.get "her2_final_status" = Cell.str "Negative") ∧
      ir.2.get "pp_her2" ≠ Cell.null ∧
      (ir.2.get "H" = Cell.int 1 ↔
        ir.2.get "her2_final_status" = Cell.str "Positive") :=
  ⟨rfl, clean_mutations_invariant ⟨["HER2.Status", "pp_HER2"],
      [(0, [("HER2.Status", Cell.str "POSITIVE"), ("pp_HER2", Cell.num 1)]),
       (1, [("HER2.Status", Cell.str "negative"), ("pp_HER2", Cell.num 2)])]⟩ none
    _ "pp_her2" rfl⟩

/-! ### C9 — the store model never writes through the input reference -/

theorem alloc_length (σ : Store) (x : Table) :
    (alloc σ x).length = σ.length + 1 := by
  simp [alloc]

theorem setRef_length (σ : Store) (i : Nat) (x : Table) :
    (setRef σ i x).length = σ.length := by
  simp [setRef]

theorem getRef_alloc (σ : Store) (x : Table) (r : Nat) (h : r < σ.length) :
    getRef (alloc σ x) r = getRef σ r := by
  unfold getRef alloc
  rw [List.getD_eq_getElem?_getD, List.getD_eq_getElem?_getD,
    List.getElem?_append, if_pos h]

theorem getRef_set_ne (σ : Store) (i : Nat) (x : Table) (r : Nat) (h : r ≠ i) :
    getRef (setRef σ i x) r = getRef σ r := by
  unfold getRef setRef
  rw [List.getD_eq_getElem?_getD, List.getD_eq_getElem?_getD,
    List.getElem?_set_ne (fun he => h he.symm)]

set_option maxHeartbeats 1000000 in
theorem clean_mutationsS_pres (σ : Store) (r : Nat) (pref : Option (List String))
    (h : r < σ.length) :
    getRef (clean_mutationsS σ r pref).1 r = getRef σ r := by
  unfold clean_mutationsS
  dsimp only
  split
  all_goals try split
  all_goals try split
  all_goals try dsimp only
  all_goals repeat
    first
    | (refine (getRef_set_ne _ _ _ _ ?_).trans ?_
       try simp only [alloc_length, setRef_length]
       omega)
    | (refine (getRef_alloc _ _ _ ?_).trans ?_
       try simp only [alloc_length, setRef_length]
       omega)
    | split
    | rfl

set_option maxHeartbeats 1000000 in
theorem clean_drugsS_pres (σ : Store) (r : Nat) (h : r < σ.length) :
    getRef (clean_drugsS σ r).1 r = getRef σ r := by
  unfold clean_drugsS
  dsimp only
  all_goals try split
  all_goals try dsimp only
  all_goals repeat
    first
    | (refine (getRef_set_ne _ _ _ _ ?_).trans ?_
       try simp only [alloc_length, setRef_length]
       omega)
    | (refine (getRef_alloc _ _ _ ?_).trans ?_
       try simp only [alloc_length, setRef_length]
       omega)
    | split
    | rfl

set_option maxHeartbeats 1000000 in
theorem encode_vital_statusS_pres (σ : Store) (r : Nat) (col : String)
    (h : r < σ.length) :
    getRef (encode_vital_statusS σ r col).1 r = getRef σ r := by
  unfold encode_vital_statusS
  dsimp only
  all_goals try split
  all_goals try split
  all_goals try dsimp only
  all_goals repeat
    first
    | (refine (getRef_set_ne _ _ _ _ ?_).trans ?_
       try simp only [alloc_length, setRef_length]
       omega)
    | (refine (getRef_alloc _ _ _ ?_).trans ?_
       try simp only [alloc_length, setRef_length]
       omega)
    | split
    | rfl

set_option maxHeartbeats 1000000 in
theorem validate_drugs_numericS_pres (σ : Store) (r : Nat) (cv : ℚ × ℚ)
    (md : ℚ) (kz : Bool) (h : r < σ.length) :
    getRef (validate_drugs_numericS σ r cv md kz).1 r = getRef σ r := by
  unfold validate_drugs_numericS
  dsimp only
  all_goals try split
  all_goals try split
  all_goals try split
  all_goals try split
  all_goals try dsimp only
  all_goals repeat
    first
    | (refine (getRef_set_ne _ _ _ _ ?_).trans ?_
       try simp only [alloc_length, setRef_length]
       omega)
    | (refine (getRef_alloc _ _ _ ?_).trans ?_
       try simp only [alloc_length, setRef_length]
       omega)
    | split
    | rfl

set_option maxHeartbeats 1000000 in
theorem add_her2_group_by_medianS_pres (σ : Store) (r : Nat) (sc : String)
    (h : r < σ.length) :
    getRef (add_her2_group_by_medianS σ r sc).1 r = getRef σ r := by
  unfold add_her2_group_by_medianS
  dsimp only
  all_goals repeat
    first
    | (refine (getRef_set_ne _ _ _ _ ?_).trans ?_
       try simp only [alloc_length, setRef_length]
       omega)
    | (refine (getRef_alloc _ _ _ ?_).trans ?_
       try simp only [alloc_length, setRef_length]
       omega)
    | split
    | rfl

set_option maxHeartbeats 1000000 in
theorem frac_belowS_pres (σ : Store) (r : Nat) (drugs : List String) (th : ℚ)
    (h : r < σ.length) :
    getRef (frac_belowS σ r drugs th).1 r = getRef σ r := by
  unfold frac_belowS
  dsimp only
  all_goals repeat
    first
    | (refine (getRef_set_ne _ _ _ _ ?_).trans ?_
       try simp only [alloc_length, setRef_length]
       omega)
    | (refine (getRef_alloc _ _ _ ?_).trans ?_
       try simp only [alloc_length, setRef_length]
       omega)
    | split
    | rfl

/-- C9: every modelled cleaning/statistics function, run on the explicit
store, leaves the caller's table untouched: the input slot `r` holds the
same table before and after the call (all writes go to slots allocated by
`df.copy()` or by rebinding results inside the call).  The two rank-sum
wrappers and the missingness report only read their input frames, and the
contingency construction (`survival_table`) is a pure read as well. -/
theorem cleaning_functions_no_mutation (σ : Store) (r : Nat) (h : r < σ.length) :
    (∀ pref, getRef (clean_mutationsS σ r pref).1 r = getRef σ r) ∧
    getRef (clean_drugsS σ r).1 r = getRef σ r ∧
    (∀ col, getRef (encode_vital_statusS σ r col).1 r = getRef σ r) ∧
    (∀ cv md kz, getRef (validate_drugs_numericS σ r cv md kz).1 r = getRef σ r) ∧
    (∀ sc, getRef (add_her2_group_by_medianS σ r sc).1 r = getRef σ r) ∧
    (∀ drugs th, getRef (frac_belowS σ r drugs th).1 r = getRef σ r) :=
  ⟨fun pref => clean_mutationsS_pres σ r pref h,
   clean_drugsS_pres σ r h,
   fun col => encode_vital_statusS_pres σ r col h,
   fun cv md kz => validate_drugs_numericS_pres σ r cv md kz h,
   fun sc => add_her2_group_by_medianS_pres σ r sc h,
   fun drugs th => frac_belowS_pres σ r drugs th h⟩

/-- Witness for `cleaning_functions_no_mutation` on a one-table store. -/
theorem cleaning_functions_no_mutation_witness :
    getRef (clean_drugsS [Table.mk ["x"] []] 0).1 0 = Table.mk ["x"] [] :=
  ((cleaning_functions_no_mutation [Table.mk ["x"] []] 0 (by decide)).2.1).trans rfl

/-! ### C6 — normalizer idempotence -/

theorem char_ofNat_toNat_shift (n : Nat) (h1 : 65 ≤ n) (h2 : n ≤ 90) :
    (Char.ofNat (n + 32)).toNat = n + 32 := by
  unfold Char.ofNat
  rw [dif_pos (by unfold Nat.isValidChar; omega)]
  unfold Char.ofNatAux Char.toNat
  dsimp only
  simp [UInt32.toNat, BitVec.toNat_ofNatLt]

theorem toLower_eq_self {c : Char} (h : isUpperAscii c = false) :
    Char.toLower c = c := by
  unfold Char.toLower
  rw [if_neg]
  intro hc
  rw [isUpperAscii] at h
  simp only [Bool.and_eq_false_iff, decide_eq_false_iff_not] at h
  rcases h with h | h
  · exact h hc.1
  · exact h hc.2

theorem isUpperAscii_toLower (c : Char) : isUpperAscii (Char.toLower c) = false := by
  by_cases hc : 65 ≤ c.toNat ∧ c.toNat ≤ 90
  · unfold Char.toLower
    rw [if_pos hc]
    unfold isUpperAscii
    rw [char_ofNat_toNat_shift c.toNat hc.1 hc.2]
    simp only [Bool.and_eq_false_iff, decide_eq_false_iff_not]
    right
    omega
  · rw [toLower_eq_self (by
      unfold isUpperAscii
      simp only [Bool.and_eq_false_iff, decide_eq_false_iff_not]
      omega)]
    unfold isUpperAscii
    simp only [Bool.and_eq_false_iff, decide_eq_false_iff_not]
    omega

theorem isSep_false_of_ge {c : Char} (h : 65 ≤ c.toNat) : isSep c = false := by
  have hne : ∀ d : Char, d.toNat < 65 → (c == d) = false := by
    intro d hd
    rw [beq_eq_false_iff_ne]
    intro he
    rw [he] at h
    omega
  unfold isSep
  rw [hne '.' (by decide), hne '-' (by decide), hne ' ' (by decide),
    hne '\t' (by decide), hne '\n' (by decide), hne '\r' (by decide),
    hne '\x0b' (by decide), hne '\x0c' (by decide)]
  rfl

theorem isSep_toLower (c : Char) : isSep (Char.toLower c) = isSep c := by
  by_cases hc : 65 ≤ c.toNat ∧ c.toNat ≤ 90
  · have hl : (Char.toLower c).toNat = c.toNat + 32 := by
      unfold Char.toLower
      rw [if_pos hc]
      exact char_ofNat_toNat_shift c.toNat hc.1 hc.2
    rw [isSep_false_of_ge (by omega : 65 ≤ c.toNat),
      isSep_false_of_ge (by rw [hl]; omega)]
  · rw [toLower_eq_self (by
      unfold isUpperAscii
      simp only [Bool.and_eq_false_iff, decide_eq_false_iff_not]
      omega)]

theorem squashRuns_mem {p : Char → Bool} {l : List Char} {c : Char}
    (h : c ∈ squashRuns p l) : (c ∈ l ∧ p c = false) ∨ c = '_' := by
  induction l with
  | nil => cases h
  | cons a rest ih =>
    cases rest with
    | nil =>
        unfold squashRuns at h
        split at h
        · right; simpa using h
        · next hpa =>
            rcases List.mem_singleton.mp h with rfl
            exact Or.inl ⟨List.mem_cons_self _ _, by simpa using hpa⟩
    | cons b rest2 =>
        unfold squashRuns at h
        split at h
        · split at h
          · rcases ih h with ⟨hm, hp⟩ | hu
            · exact Or.inl ⟨List.mem_cons_of_mem _ hm, hp⟩
            · exact Or.inr hu
          · rcases List.mem_cons.mp h with rfl | h2
            · exact Or.inr rfl
            · rcases ih h2 with ⟨hm, hp⟩ | hu
              · exact Or.inl ⟨List.mem_cons_of_mem _ hm, hp⟩
              · exact Or.inr hu
        · rcases List.mem_cons.mp h with rfl | h2
          · next hpa => exact Or.inl ⟨List.mem_cons_self _ _, by simpa using hpa⟩
          · rcases ih h2 with ⟨hm, hp⟩ | hu
            · exact Or.inl ⟨List.mem_cons_of_mem _ hm, hp⟩
            · exact Or.inr hu

theorem squashRuns_id {p : Char → Bool} {l : List Char}
    (h : ∀ c ∈ l, p c = false) : squashRuns p l = l := by
  induction l with
  | nil => rfl
  | cons a rest ih =>
    cases rest with
    | nil =>
        unfold squashRuns
        rw [if_neg (by rw [h a (List.mem_cons_self _ _)]; exact Bool.false_ne_true)]
    | cons b rest2 =>
        unfold squashRuns
        rw [if_neg (by rw [h a (List.mem_cons_self _ _)]; exact Bool.false_ne_true)]
        rw [ih (fun c hc => h c (List.mem_cons_of_mem _ hc))]

theorem squashRuns_head {p : Char → Bool} {c : Char} (cs : List Char)
    (h : p c = false) :
    ∃ t, squashRuns p (c :: cs) = c :: t := by
  cases cs with
  | nil =>
      refine ⟨[], ?_⟩
      unfold squashRuns
      rw [if_neg (by rw [h]; exact Bool.false_ne_true)]
  | cons b rest =>
      refine ⟨squashRuns p (b :: rest), ?_⟩
      simp only [squashRuns]
      rw [if_neg (by rw [h]; exact Bool.false_ne_true)]

theorem isUnd_false_ne {c : Char} (h : isUnd c = false) : c ≠ '_' := by
  intro he
  rw [he] at h
  cases h

theorem squashRuns_isUnd_noDub (l : List Char) : NoDub (squashRuns isUnd l) := by
  induction l with
  | nil => exact List.chain'_nil
  | cons a rest ih =>
    cases rest with
    | nil =>
        unfold squashRuns
        split
        · exact List.chain'_singleton _
        · exact List.chain'_singleton _
    | cons b rest2 =>
        simp only [squashRuns]
        split
        · split
          · exact ih
          · next hb =>
            have hb' : isUnd b = false := by simpa using hb
            rcases squashRuns_head rest2 hb' with ⟨t, ht⟩
            rw [ht]
            refine List.chain'_cons.mpr ⟨fun hc => isUnd_false_ne hb' hc.2, ?_⟩
            rw [← ht]
            exact ih
        · next ha =>
          have ha' : isUnd a = false := by simpa using ha
          exact List.chain'_cons'.mpr ⟨fun y _ hc => isUnd_false_ne ha' hc.1, ih⟩

theorem squashRuns_isUnd_id {l : List Char} (h : NoDub l) :
    squashRuns isUnd l = l := by
  induction l with
  | nil => rfl
  | cons a rest ih =>
    cases rest with
    | nil =>
        unfold squashRuns
        split
        · next ha =>
          have : a = '_' := by simpa [isUnd] using ha
          rw [this]
        · rfl
    | cons b rest2 =>
        have hchain := List.chain'_cons.mp h
        simp only [squashRuns]
        split
        · next ha =>
          have ha' : a = '_' := by simpa [isUnd] using ha
          have hb' : isUnd b = false := by
            rcases hb : isUnd b with _ | _
            · rfl
            · exact absurd ⟨ha', by simpa [isUnd] using hb⟩ hchain.1
          rw [if_neg (by rw [hb']; exact Bool.false_ne_true)]
          rw [ih hchain.2, ha']
        · rw [ih hchain.2]

theorem camelSplit_mem {l : List Char} {c : Char} (h : c ∈ camelSplit l) :
    c ∈ l ∨ c = '_' := by
  induction l with
  | nil => cases h
  | cons a rest ih =>
    cases rest with
    | nil =>
        simp only [camelSplit] at h
        exact Or.inl h
    | cons b rest2 =>
        simp only [camelSplit] at h
        split at h
        · rcases List.mem_cons.mp h with rfl | h2
          · exact Or.inl (List.mem_cons_self _ _)
          · rcases List.mem_cons.mp h2 with rfl | h3
            · exact Or.inr rfl
            · rcases ih h3 with hm | hu
              · exact Or.inl (List.mem_cons_of_mem _ hm)
              · exact Or.inr hu
        · rcases List.mem_cons.mp h with rfl | h2
          · exact Or.inl (List.mem_cons_self _ _)
          · rcases ih h2 with hm | hu
            · exact Or.inl (List.mem_cons_of_mem _ hm)
            · exact Or.inr hu

theorem camelSplit_id {l : List Char} (h : ∀ c ∈ l, isUpperAscii c = false) :
    camelSplit l = l := by
  induction l with
  | nil => rfl
  | cons a rest ih =>
    cases rest with
    | nil => rfl
    | cons b rest2 =>
        simp only [camelSplit]
        rw [if_neg]
        · rw [ih (fun c hc => h c (List.mem_cons_of_mem _ hc))]
        · rw [h b (List.mem_cons_of_mem _ (List.mem_cons_self _ _))]
          simp

theorem map_toLower_id {l : List Char} (h : ∀ c ∈ l, isUpperAscii c = false) :
    l.map Char.toLower = l := by
  induction l with
  | nil => rfl
  | cons a rest ih =>
    rw [List.map_cons, toLower_eq_self (h a (List.mem_cons_self _ _)),
      ih (fun c hc => h c (List.mem_cons_of_mem _ hc))]

theorem head?_dropWhile_ne (l : List Char) :
    (l.dropWhile isUnd).head? ≠ some '_' := by
  induction l with
  | nil => simp
  | cons a t ih =>
    rw [List.dropWhile_cons]
    split
    · exact ih
    · next ha =>
      intro he
      have : a = '_' := by simpa using he
      exact ha (by rw [this]; rfl)

theorem getLast?_of_suffix {l₁ l₂ : List Char} (h : l₁ <:+ l₂) (hne : l₁ ≠ []) :
    l₁.getLast? = l₂.getLast? := by
  rcases h with ⟨t, rfl⟩
  rw [List.getLast?_append]
  rcases hx : l₁.getLast? with _ | x
  · exact absurd (List.getLast?_eq_none_iff.mp hx) hne
  · rfl

theorem stripUnd_mem {l : List Char} {c : Char} (h : c ∈ stripUnd l) : c ∈ l := by
  unfold stripUnd at h
  rw [List.mem_reverse] at h
  have h2 := (List.dropWhile_sublist _).mem h
  rw [List.mem_reverse] at h2
  exact (List.dropWhile_sublist _).mem h2

theorem stripUnd_noDub {l : List Char} (h : NoDub l) : NoDub (stripUnd l) := by
  unfold NoDub at *
  unfold stripUnd
  rw [List.chain'_reverse]
  have h1 : List.Chain' (fun a b => ¬(a = '_' ∧ b = '_')) (l.dropWhile isUnd) :=
    List.Chain'.suffix h (List.dropWhile_suffix _)
  have h2 : List.Chain' (fun a b => ¬(a = '_' ∧ b = '_'))
      ((l.dropWhile isUnd).reverse) := by
    rw [List.chain'_reverse]
    exact h1.imp (fun a b hab hc => hab ⟨hc.2, hc.1⟩)
  exact (List.Chain'.suffix h2 (List.dropWhile_suffix _)).imp
    (fun a b hab hc => hab ⟨hc.2, hc.1⟩)

theorem stripUnd_head (l : List Char) : (stripUnd l).head? ≠ some '_' := by
  unfold stripUnd
  rw [List.head?_reverse]
  rcases he : ((l.dropWhile isUnd).reverse.dropWhile isUnd) with _ | ⟨x, t⟩
  · simp
  · rw [← he,
      getLast?_of_suffix (List.dropWhile_suffix _) (by rw [he]; exact List.cons_ne_nil _ _),
      List.getLast?_reverse]
    exact head?_dropWhile_ne l

theorem stripUnd_last (l : List Char) : (stripUnd l).getLast? ≠ some '_' := by
  unfold stripUnd
  rw [List.getLast?_reverse]
  exact head?_dropWhile_ne _

theorem dropWhile_id_of_head {l : List Char} (h : l.head? ≠ some '_') :
    l.dropWhile isUnd = l := by
  cases l with
  | nil => rfl
  | cons a t =>
    rw [List.dropWhile_cons, if_neg]
    intro ha
    have he : a = '_' := by simpa [isUnd] using ha
    subst he
    exact h rfl

theorem stripUnd_id {l : List Char} (h1 : l.head? ≠ some '_')
    (h2 : l.getLast? ≠ some '_') : stripUnd l = l := by
  unfold stripUnd
  rw [dropWhile_id_of_head h1, dropWhile_id_of_head (by rwa [List.head?_reverse]),
    List.reverse_reverse]

theorem to_snake_id_of_canon {l : List Char} (h : Canon l) :
    to_snake (String.mk l) = String.mk l := by
  obtain ⟨hsep, hup, hdub, hhd, hlast⟩ := h
  unfold to_snake
  have h0 : (String.mk l).toList = l := rfl
  rw [h0, squashRuns_id hsep, camelSplit_id hup, map_toLower_id hup,
    squashRuns_isUnd_id hdub, stripUnd_id hhd hlast]

theorem to_snake_canon (s : String) : Canon (to_snake s).toList := by
  have hL : (to_snake s).toList =
      stripUnd (squashRuns isUnd
        ((camelSplit (squashRuns isSep s.toList)).map Char.toLower)) := rfl
  rw [hL]
  refine ⟨?_, ?_, ?_, ?_, ?_⟩
  · intro c hc
    rcases squashRuns_mem (stripUnd_mem hc) with ⟨hm, _⟩ | hu
    · rcases List.mem_map.mp hm with ⟨d, hd, rfl⟩
      rw [isSep_toLower]
      rcases camelSplit_mem hd with hd2 | rfl
      · rcases squashRuns_mem hd2 with ⟨_, hf⟩ | rfl
        · exact hf
        · decide
      · decide
    · rw [hu]; decide
  · intro c hc
    rcases squashRuns_mem (stripUnd_mem hc) with ⟨hm, _⟩ | hu
    · rcases List.mem_map.mp hm with ⟨d, _, rfl⟩
      exact isUpperAscii_toLower d
    · rw [hu]; decide
  · exact stripUnd_noDub (squashRuns_isUnd_noDub _)
  · exact stripUnd_head _
  · exact stripUnd_last _

/-- C6: `to_snake` is idempotent — applying the name normalizer to an
already-normalized column name returns it unchanged, so for every string
`s`, `to_snake (to_snake s) = to_snake s`. -/
theorem to_snake_idempotent (s : String) :
    to_snake (to_snake s) = to_snake s := by
  have h := to_snake_id_of_canon (to_snake_canon s)
  have he : String.mk (to_snake s).toList = to_snake s := rfl
  rwa [he] at h
